import Mathlib

/-!
A shallow embedding in Lean 4 of the DictFetch program: a word-lookup tool
that queries two lexical providers (dictionaryapi.dev and DBnary) concurrently,
normalizes their responses into a shared `Definition` record, aggregates the
results with per-source timings, and persists a search history file.

Pure functions (the normalizers `ConvertDictEntries` / `ConvertDBnaryEntries`)
are translated directly.  The provider fetchers are modelled with the HTTP
response passed in as data; the concurrent aggregation in `LookupAll` is
modelled by passing each provider task's outcome and duration explicitly,
together with boolean flags fixing the arrival order of the two tasks'
messages on each buffered channel.  The history file is modelled as explicit
state (absent, or holding a parse result of the stored JSON array).

Field names keep the Go source's exported capitalization.
-/

set_option linter.dupNamespace false

namespace DictFetch

/-- Normalized definition record shared by all providers (Go struct `Definition`). -/
structure Definition where
  Word : String
  PartOfSpeech : String
  Definition : String
  Example : String
  Source : String
deriving DecidableEq, Repr

/-- Leaf definition of a dictionaryapi.dev meaning. -/
structure DictDef where
  Definition : String
  Example : String
  Synonyms : List String
  Antonyms : List String
deriving DecidableEq, Repr

/-- One meaning of a dictionaryapi.dev entry: a part of speech with its definitions. -/
structure DictMeaning where
  PartOfSpeech : String
  Definitions : List DictDef
deriving DecidableEq, Repr

/-- dictionaryapi.dev response entry (Go struct `DictEntry`). -/
structure DictEntry where
  Word : String
  Meanings : List DictMeaning
deriving DecidableEq, Repr

/-- One SPARQL result binding: a map from variable name to a map that holds the
`value` key, modelled as association lists (Go `map[string]map[string]string`). -/
abbrev Binding := List (String × List (String × String))

/-- Head of a SPARQL JSON response. -/
structure SparqlHead where
  Vars : List String
deriving DecidableEq, Repr

/-- Result section of a SPARQL JSON response. -/
structure SparqlResults where
  Bindings : List Binding
deriving DecidableEq, Repr

/-- DBnary SPARQL response (Go struct `SparqlEntry`). -/
structure SparqlEntry where
  Head : SparqlHead
  Results : SparqlResults
deriving DecidableEq, Repr

/-- Timing record of one aggregated lookup (Go struct `LookupTiming`); the
`Sources` map is modelled as an association list with map-update insertion. -/
structure LookupTiming where
  Total : Nat
  Sources : List (String × Nat)
deriving DecidableEq, Repr

/-- Errors a provider fetch can produce, mirroring the Go error values:
connection/timeout failure from the HTTP client, the
`API error: received status code %d` error, the
`JSON error: Expected array but got something else` error, and JSON decoder
failures. -/
inductive GoError where
  | network (msg : String)
  | apiStatus (code : Nat)
  | jsonExpectedArray
  | jsonDecode (msg : String)
deriving DecidableEq, Repr

/-! ### Normalizer for dictionaryapi.dev (`ConvertDictEntries`) -/

/-- `ConvertDictEntries` flattens each entry's meanings and each meaning's
definitions into one `Definition` per leaf, copying the meaning's part of
speech and the entry's word, and tagging the source. -/
def ConvertDictEntries (entries : List DictEntry) : List Definition :=
  entries.flatMap fun entry =>
    entry.Meanings.flatMap fun meaning =>
      meaning.Definitions.map fun d =>
        { Word := entry.Word
          PartOfSpeech := meaning.PartOfSpeech
          Definition := d.Definition
          Example := d.Example
          Source := "dictionaryapi.dev" }

/-! ### Normalizer for DBnary (`ConvertDBnaryEntries`) -/

/-- Index of the last occurrence of `'#'` in a character list
(Go `strings.LastIndex(pos, "#")`; `none` plays the role of `-1`).
Since `'#'` is a single-byte character, Go's byte index of the last `'#'`
and the character index agree on which characters follow it. -/
def lastHashIdx : List Char → Option Nat
  | [] => none
  | c :: cs =>
    match lastHashIdx cs with
    | some i => some (i + 1)
    | none => if c = '#' then some 0 else none

/-- The part-of-speech fragment step of `ConvertDBnaryEntries`: when the value
contains a `'#'` that is followed by at least one character, keep only what
follows the last `'#'`; otherwise keep the value unchanged. -/
def posFrag (pos : String) : String :=
  match lastHashIdx pos.data with
  | some i => if i + 1 < pos.data.length then String.mk (pos.data.drop (i + 1)) else pos
  | none => pos

/-- Whitespace recognizer of Go's `unicode.IsSpace`: in the Latin-1 range
these are `'\t'`, `'\n'`, `'\x0b'`, `'\x0c'`, `'\r'`, `' '`, NEL and NBSP;
beyond Latin-1, the characters with the Unicode `White_Space` property:
U+1680, U+2000 through U+200A, U+2028, U+2029, U+202F, U+205F and U+3000. -/
def goIsSpace (c : Char) : Bool :=
  c == ' ' || c == '\t' || c == '\n' || c == '\x0b' || c == '\x0c' || c == '\r' ||
    c == '\x85' || c == '\xa0' ||
    c == '\u1680' ||
    c == '\u2000' || c == '\u2001' || c == '\u2002' || c == '\u2003' || c == '\u2004' ||
    c == '\u2005' || c == '\u2006' || c == '\u2007' || c == '\u2008' || c == '\u2009' ||
    c == '\u200A' ||
    c == '\u2028' || c == '\u2029' || c == '\u202F' || c == '\u205F' || c == '\u3000'

/-- Go's `strings.TrimSpace`: remove leading and trailing whitespace. -/
def trimSpace (s : String) : String :=
  String.mk (((s.data.dropWhile goIsSpace).reverse.dropWhile goIsSpace).reverse)

/-- Read variable `k` of a binding: `none` when the variable is absent
(Go `v, ok := binding[k]` with `ok = false`), otherwise the `value` field of
the inner map, defaulting to `""` (the Go map zero value). -/
def bindingStr (binding : Binding) (k : String) : Option String :=
  (binding.lookup k).map fun v => (v.lookup "value").getD ""

/-- The body of `ConvertDBnaryEntries`' per-binding loop: skip the row when the
definition is absent or blank after trimming, otherwise build the
`Definition`, normalizing the part-of-speech URI fragment. -/
def convertBinding (word : String) (binding : Binding) : Option Definition :=
  let d := (bindingStr binding "definition").getD ""
  if trimSpace d = "" then none
  else
    let pos :=
      match bindingStr binding "partOfSpeech" with
      | none => ""
      | some p => posFrag p
    let ex := (bindingStr binding "example").getD ""
    some { Word := word, PartOfSpeech := pos, Definition := d, Example := ex, Source := "DBnary" }

/-- `ConvertDBnaryEntries` maps every kept binding of every entry to a
`Definition`, dropping rows without a usable definition value. -/
def ConvertDBnaryEntries (entries : List SparqlEntry) (word : String) : List Definition :=
  entries.flatMap fun entry => entry.Results.Bindings.filterMap (convertBinding word)

/-! ### Provider fetchers

The network is modelled by passing the HTTP interaction's outcome in as data:
either a client error (connection failure / timeout), or a response carrying a
status code and a body.  The body of the dictionaryapi.dev response is a JSON
token stream whose element decodes are taken as given (the Go code delegates
them to `encoding/json`), keeping the structure the code itself inspects: the
first top-level token, the per-element decode results, and the closing token. -/

instance {ε α : Type} [DecidableEq ε] [DecidableEq α] : DecidableEq (Except ε α) := fun a b =>
  match a, b with
  | .ok x, .ok y =>
    if h : x = y then .isTrue (by rw [h]) else .isFalse (by intro hc; cases hc; exact h rfl)
  | .error x, .error y =>
    if h : x = y then .isTrue (by rw [h]) else .isFalse (by intro hc; cases hc; exact h rfl)
  | .ok _, .error _ => .isFalse (by intro hc; cases hc)
  | .error _, .ok _ => .isFalse (by intro hc; cases hc)

/-- A JSON token as surfaced by `encoding/json`'s `Decoder.Token`. -/
inductive JsonToken where
  | arrayOpen
  | arrayClose
  | objectOpen
  | objectClose
  | stringTok (s : String)
  | numberTok (n : Int)
  | boolTok (b : Bool)
  | nullTok
deriving DecidableEq, Repr

/-- The dictionaryapi.dev response body as seen through the streaming decoder:
the first top-level token (`none` when `Token()` itself fails, e.g. an empty
body), the successive results of `Decode(&entry)`, and whether consuming the
closing token succeeds. -/
structure DictBody where
  firstToken : Option JsonToken
  elements : List (Except String DictEntry)
  closingOk : Bool
deriving DecidableEq, Repr

/-- An HTTP response with status code and decoded-body model. -/
structure HttpResponse (β : Type) where
  statusCode : Nat
  body : β
deriving DecidableEq, Repr

/-- Decode the streamed element list: the first failing `Decode` aborts,
otherwise the entries accumulate in order. -/
def decodeElems : List (Except String DictEntry) → Except GoError (List DictEntry)
  | [] => .ok []
  | .error m :: _ => .error (.jsonDecode m)
  | .ok e :: rest => (decodeElems rest).map fun es => e :: es

/-- The decoding phase of `LookupDictEntry`: peek at the first token, expect
`'['`, then iterate element decodes and consume the closing token. -/
def decodeDictStream (b : DictBody) : Except GoError (List DictEntry) :=
  match b.firstToken with
  | none => .error (.jsonDecode "EOF")
  | some t =>
    if t = .arrayOpen then
      match decodeElems b.elements with
      | .error e => .error e
      | .ok entries => if b.closingOk then .ok entries else .error (.jsonDecode "EOF")
    else .error .jsonExpectedArray

/-- `LookupDictEntry` with the HTTP outcome passed in: a client error is
returned as-is; a response with status other than 200 (`http.StatusOK`)
becomes the `API error: received status code %d` error; otherwise the body is
decoded as a streamed JSON array. -/
def LookupDictEntry (resp : Except String (HttpResponse DictBody)) :
    Except GoError (List DictEntry) :=
  match resp with
  | .error m => .error (.network m)
  | .ok r =>
    if r.statusCode ≠ 200 then .error (.apiStatus r.statusCode)
    else decodeDictStream r.body

/-- `LookupDBnaryEntry` with the HTTP outcome passed in: a client error is
returned as-is; a response with status other than 200 becomes the
`API error: received status code %d` error; otherwise the body is decoded in
one `Decode` call into a `SparqlEntry` and wrapped in a singleton list. -/
def LookupDBnaryEntry (resp : Except String (HttpResponse (Except String SparqlEntry))) :
    Except GoError (List SparqlEntry) :=
  match resp with
  | .error m => .error (.network m)
  | .ok r =>
    if r.statusCode ≠ 200 then .error (.apiStatus r.statusCode)
    else
      match r.body with
      | .error m => .error (.jsonDecode m)
      | .ok result => .ok [result]

/-! ### The aggregation engine (`LookupAll`)

Each of the two goroutines either sends one error to `errChan`, or sends one
definition batch to `defChan` and one named duration to `durChan`; all three
channels are buffered with capacity 2, so no send blocks.  After both
goroutines finish, the engine drains the channels.  The contents of each
channel are therefore determined by the two task outcomes plus, per channel,
which task's message was sent first; the `dictFirst…` flags below fix those
orders (one per channel, as the interleavings are independent). -/

/-- Contents of `defChan` after both tasks finish: one batch of normalized
definitions per successful task, in arrival order. -/
def lookupDefChan (word : String) (dict : Except GoError (List DictEntry))
    (dbn : Except GoError (List SparqlEntry)) (dictFirstDef : Bool) :
    List (List Definition) :=
  let d1 := match dict with
    | .ok entries => [ConvertDictEntries entries]
    | .error _ => []
  let d2 := match dbn with
    | .ok entries => [ConvertDBnaryEntries entries word]
    | .error _ => []
  if dictFirstDef then d1 ++ d2 else d2 ++ d1

/-- Contents of `durChan` after both tasks finish: one named duration per
successful task, in arrival order. -/
def lookupDurChan (dict : Except GoError (List DictEntry))
    (dbn : Except GoError (List SparqlEntry)) (dictDur dbnDur : Nat)
    (dictFirstDur : Bool) : List (String × Nat) :=
  let d1 := match dict with
    | .ok _ => [("dictionaryapi.dev", dictDur)]
    | .error _ => []
  let d2 := match dbn with
    | .ok _ => [("DBnary", dbnDur)]
    | .error _ => []
  if dictFirstDur then d1 ++ d2 else d2 ++ d1

/-- Contents of `errChan` after both tasks finish: one error per failed task,
in arrival order. -/
def lookupErrChan (dict : Except GoError (List DictEntry))
    (dbn : Except GoError (List SparqlEntry)) (dictFirstErr : Bool) :
    List GoError :=
  let e1 := match dict with
    | .ok _ => []
    | .error e => [e]
  let e2 := match dbn with
    | .ok _ => []
    | .error e => [e]
  if dictFirstErr then e1 ++ e2 else e2 ++ e1

/-- Go map assignment `m[k] = v` on the association-list model. -/
def mapSet (m : List (String × Nat)) (k : String) (v : Nat) : List (String × Nat) :=
  match m with
  | [] => [(k, v)]
  | (k', v') :: rest => if k' = k then (k, v) :: rest else (k', v') :: mapSet rest k v

/-- Drain `durChan` into the fresh `Sources` map. -/
def buildSources (durs : List (String × Nat)) : List (String × Nat) :=
  durs.foldl (fun m d => mapSet m d.1 d.2) []

/-- The triple `LookupAll` returns. -/
structure LookupResult where
  defs : List Definition
  timing : LookupTiming
  err : Option GoError
deriving DecidableEq, Repr

/-- `LookupAll`, with each provider task's fetch outcome and elapsed duration
passed in, plus the per-channel arrival orders: drain `defChan` into one
combined list, drain `durChan` into the `Sources` map, then, if `errChan` is
non-empty, return the gathered definitions with a zero-value `LookupTiming`
and the first buffered error, else return the definitions, the timings and no
error. -/
def LookupAll (word : String) (dict : Except GoError (List DictEntry))
    (dbn : Except GoError (List SparqlEntry)) (dictDur dbnDur totalDur : Nat)
    (dictFirstDef dictFirstDur dictFirstErr : Bool) : LookupResult :=
  let allDefinitions := (lookupDefChan word dict dbn dictFirstDef).flatten
  let timings : LookupTiming :=
    { Total := totalDur
      Sources := buildSources (lookupDurChan dict dbn dictDur dbnDur dictFirstDur) }
  match lookupErrChan dict dbn dictFirstErr with
  | [] => { defs := allDefinitions, timing := timings, err := none }
  | e :: _ => { defs := allDefinitions, timing := { Total := 0, Sources := [] }, err := some e }

/-! ### Search-history persistence

The history file is modelled as explicit state: `none` when the file does not
exist, `some c` when it exists with content `c`, where `c` is the result of
JSON-parsing the stored array (`Except.error` models malformed content). -/

/-- The state of the `recent_search.json` file. -/
abbrev HistoryFile := Option (Except String (List String))

/-- `getRecentSearches`: a missing file yields the empty history (not an
error); malformed JSON propagates as an error; otherwise the stored list. -/
def getRecentSearches (fs : HistoryFile) : Except String (List String) :=
  match fs with
  | none => .ok []
  | some (.error e) => .error e
  | some (.ok l) => .ok l

/-- `addRecentSearch`: read the existing history, append the new word, and
overwrite the file with the marshalled list; returns the new file state and
the marshalled history. -/
def addRecentSearch (word : String) (fs : HistoryFile) :
    Except String (HistoryFile × List String) :=
  match getRecentSearches fs with
  | .error e => .error e
  | .ok existing =>
    let updated := existing ++ [word]
    .ok (some (.ok updated), updated)

end DictFetch

section Scratch
open DictFetch

example : posFrag "http://example.org/ontology#noun" = "noun" := by decide

example : posFrag "abc#" = "abc#" := by decide

example : posFrag "noun" = "noun" := by decide

example :
    ConvertDictEntries [⟨"run", [⟨"verb", [⟨"move fast", "", [], []⟩, ⟨"operate", "", [], []⟩]⟩]⟩]
      = [⟨"run", "verb", "move fast", "", "dictionaryapi.dev"⟩,
         ⟨"run", "verb", "operate", "", "dictionaryapi.dev"⟩] := by decide

example :
    ConvertDBnaryEntries
      [⟨⟨["definition"]⟩, ⟨[[("definition", [("value", "  ")])],
                            [("definition", [("value", "a word")]),
                             ("partOfSpeech", [("value", "http://x#noun")])]]⟩⟩] "run"
      = [⟨"run", "noun", "a word", "", "DBnary"⟩] := by decide

end Scratch

namespace DictFetch

/-! ### Helper lemmas about the normalizers -/

lemma mem_ConvertDictEntries {d : Definition} {entries : List DictEntry} :
    d ∈ ConvertDictEntries entries ↔
      ∃ e ∈ entries, ∃ m ∈ e.Meanings, ∃ dd ∈ m.Definitions,
        d = { Word := e.Word, PartOfSpeech := m.PartOfSpeech,
              Definition := dd.Definition, Example := dd.Example,
              Source := "dictionaryapi.dev" } := by
  simp only [ConvertDictEntries, List.mem_flatMap, List.mem_map]
  constructor
  · rintro ⟨e, he, m, hm, dd, hdd, rfl⟩
    exact ⟨e, he, m, hm, dd, hdd, rfl⟩
  · rintro ⟨e, he, m, hm, dd, hdd, rfl⟩
    exact ⟨e, he, m, hm, dd, hdd, rfl⟩

lemma length_ConvertDictEntries (entries : List DictEntry) :
    (ConvertDictEntries entries).length =
      (entries.map fun e => (e.Meanings.map fun m => m.Definitions.length).sum).sum := by
  induction entries with
  | nil => rfl
  | cons e rest ih =>
    simp only [ConvertDictEntries, List.flatMap_cons, List.length_append, List.map_cons,
      List.sum_cons] at ih ⊢
    rw [ih]
    congr 1
    induction e.Meanings with
    | nil => rfl
    | cons m ms ihm =>
      simp only [List.flatMap_cons, List.length_append, List.map_cons, List.sum_cons,
        List.length_map] at ihm ⊢
      rw [ihm]

lemma Source_of_mem_ConvertDictEntries {d : Definition} {entries : List DictEntry}
    (h : d ∈ ConvertDictEntries entries) : d.Source = "dictionaryapi.dev" := by
  rcases mem_ConvertDictEntries.1 h with ⟨e, _, m, _, dd, _, rfl⟩
  rfl

lemma mem_ConvertDBnaryEntries {d : Definition} {entries : List SparqlEntry} {word : String} :
    d ∈ ConvertDBnaryEntries entries word ↔
      ∃ e ∈ entries, ∃ b ∈ e.Results.Bindings, convertBinding word b = some d := by
  simp [ConvertDBnaryEntries, List.mem_flatMap, List.mem_filterMap]

lemma convertBinding_eq_some {word : String} {b : Binding} {d : Definition}
    (h : convertBinding word b = some d) :
    d = { Word := word
          PartOfSpeech :=
            match bindingStr b "partOfSpeech" with
            | none => ""
            | some p => posFrag p
          Definition := (bindingStr b "definition").getD ""
          Example := (bindingStr b "example").getD ""
          Source := "DBnary" } ∧
    trimSpace ((bindingStr b "definition").getD "") ≠ "" := by
  simp only [convertBinding] at h
  by_cases hc : trimSpace ((bindingStr b "definition").getD "") = ""
  · rw [if_pos hc] at h
    cases h
  · rw [if_neg hc] at h
    exact ⟨(Option.some.inj h).symm, hc⟩

lemma convertBinding_none {word : String} {binding : Binding}
    (h : trimSpace ((bindingStr binding "definition").getD "") = "") :
    convertBinding word binding = none := by
  simp [convertBinding, h]

lemma Source_of_mem_ConvertDBnaryEntries {d : Definition} {entries : List SparqlEntry}
    {word : String} (h : d ∈ ConvertDBnaryEntries entries word) : d.Source = "DBnary" := by
  rcases mem_ConvertDBnaryEntries.1 h with ⟨e, _, b, _, hb⟩
  rcases convertBinding_eq_some hb with ⟨rfl, -⟩
  rfl

/-! ### Helper lemmas about the part-of-speech fragment -/

lemma lastHashIdx_of_not_mem {cs : List Char} (h : '#' ∉ cs) : lastHashIdx cs = none := by
  induction cs with
  | nil => rfl
  | cons c rest ih =>
    simp only [List.mem_cons, not_or] at h
    simp only [lastHashIdx, ih h.2]
    have : ¬c = '#' := fun hc => h.1 hc.symm
    simp [this]

lemma lastHashIdx_append {l r : List Char} (h : '#' ∉ r) :
    lastHashIdx (l ++ '#' :: r) = some l.length := by
  induction l with
  | nil => simp [lastHashIdx, lastHashIdx_of_not_mem h]
  | cons c l ih => simp [lastHashIdx, ih]

lemma posFrag_fragment {s : String} {l r : List Char} (hs : s.data = l ++ '#' :: r)
    (hr : r ≠ []) (hnr : '#' ∉ r) : posFrag s = String.mk r := by
  have hidx : lastHashIdx s.data = some l.length := by rw [hs]; exact lastHashIdx_append hnr
  have hlen : l.length + 1 < s.data.length := by
    rw [hs, List.length_append, List.length_cons]
    have : 0 < r.length := List.length_pos.2 hr
    omega
  have hdrop : s.data.drop (l.length + 1) = r := by
    rw [hs]
    have : l ++ '#' :: r = (l ++ ['#']) ++ r := by simp
    rw [this]
    have hl : l.length + 1 = (l ++ ['#']).length := by simp
    rw [hl, List.drop_left]
  rw [posFrag, hidx]
  simp only [if_pos hlen, hdrop]

lemma posFrag_of_not_mem {s : String} (h : '#' ∉ s.data) : posFrag s = s := by
  rw [posFrag, lastHashIdx_of_not_mem h]

lemma posFrag_ends_hash {s : String} {l : List Char} (hs : s.data = l ++ ['#']) :
    posFrag s = s := by
  have hidx : lastHashIdx s.data = some l.length := by
    rw [hs]
    exact lastHashIdx_append (List.not_mem_nil '#')
  have hlen : ¬l.length + 1 < s.data.length := by
    rw [hs, List.length_append, List.length_cons, List.length_nil]
    omega
  rw [posFrag, hidx]
  exact if_neg hlen

/-! ### Claim theorems for the normalizers -/

/-- Claim C3: for every list of dictionaryapi.dev records, `ConvertDictEntries`
yields exactly Σᵢ Dᵢ `Definition` records (one per leaf definition of each
record's meanings), each carrying its parent meaning's part of speech and the
entry's word. -/
theorem convertDictEntries_count_and_fields (entries : List DictEntry) :
    (ConvertDictEntries entries).length =
      (entries.map fun e => (e.Meanings.map fun m => m.Definitions.length).sum).sum ∧
    ∀ d ∈ ConvertDictEntries entries, ∃ e ∈ entries, ∃ m ∈ e.Meanings, ∃ dd ∈ m.Definitions,
      d.Word = e.Word ∧ d.PartOfSpeech = m.PartOfSpeech ∧ d.Definition = dd.Definition := by
  refine ⟨length_ConvertDictEntries entries, ?_⟩
  intro d hd
  rcases mem_ConvertDictEntries.1 hd with ⟨e, he, m, hm, dd, hdd, rfl⟩
  exact ⟨e, he, m, hm, dd, hdd, rfl, rfl, rfl⟩

/-- Witness for C3 at a concrete record with two meanings of one and two
definitions: exactly three records come out. -/
theorem convertDictEntries_count_and_fields_witness :
    (ConvertDictEntries
        [⟨"run", [⟨"verb", [⟨"move fast", "", [], []⟩]⟩,
                  ⟨"noun", [⟨"a jog", "", [], []⟩, ⟨"a sequence", "", [], []⟩]⟩]⟩]).length =
      ([(⟨"run", [⟨"verb", [⟨"move fast", "", [], []⟩]⟩,
                  ⟨"noun", [⟨"a jog", "", [], []⟩, ⟨"a sequence", "", [], []⟩]⟩]⟩ : DictEntry)].map
          fun e => (e.Meanings.map fun m => m.Definitions.length).sum).sum :=
  (convertDictEntries_count_and_fields
    [⟨"run", [⟨"verb", [⟨"move fast", "", [], []⟩]⟩,
              ⟨"noun", [⟨"a jog", "", [], []⟩, ⟨"a sequence", "", [], []⟩]⟩]⟩]).1

/-- Claim C4: `ConvertDBnaryEntries` never outputs a `Definition` whose
definition field is empty or whitespace-only, and a binding row whose
definition variable is absent or blank after trimming is dropped entirely
(removing it from the bindings does not change the output). -/
theorem convertDBnaryEntries_drops_blank (entries : List SparqlEntry) (word : String) :
    (∀ d ∈ ConvertDBnaryEntries entries word,
        trimSpace d.Definition ≠ "" ∧ d.Definition ≠ "") ∧
    (∀ binding : Binding,
        bindingStr binding "definition" = none ∨
          trimSpace ((bindingStr binding "definition").getD "") = "" →
        (convertBinding word binding = none ∧
          ∀ hd : SparqlHead, ∀ bs1 bs2 : List Binding,
            ConvertDBnaryEntries [⟨hd, ⟨bs1 ++ binding :: bs2⟩⟩] word =
              ConvertDBnaryEntries [⟨hd, ⟨bs1 ++ bs2⟩⟩] word)) := by
  constructor
  · intro d hd
    rcases mem_ConvertDBnaryEntries.1 hd with ⟨e, -, b, -, hb⟩
    rcases convertBinding_eq_some hb with ⟨rfl, hne⟩
    refine ⟨hne, ?_⟩
    intro h0
    apply hne
    have : (bindingStr b "definition").getD "" = "" := h0
    rw [this]
    rfl
  · intro binding hcase
    have hblank : trimSpace ((bindingStr binding "definition").getD "") = "" := by
      rcases hcase with habs | hbl
      · rw [habs]
        rfl
      · exact hbl
    have hnone : convertBinding word binding = none := convertBinding_none hblank
    refine ⟨hnone, ?_⟩
    intro hd bs1 bs2
    simp [ConvertDBnaryEntries, List.filterMap_append, List.filterMap_cons, hnone]

/-- Witness for C4: on a concrete response with one blank and one usable row,
the output definition is non-blank. -/
theorem convertDBnaryEntries_drops_blank_witness :
    trimSpace (Definition.Definition ⟨"run", "noun", "a word", "", "DBnary"⟩) ≠ "" ∧
    Definition.Definition ⟨"run", "noun", "a word", "", "DBnary"⟩ ≠ "" :=
  (convertDBnaryEntries_drops_blank
      [⟨⟨["definition"]⟩, ⟨[[("definition", [("value", "  ")])],
                            [("definition", [("value", "a word")]),
                             ("partOfSpeech", [("value", "http://x#noun")])]]⟩⟩] "run").1
    ⟨"run", "noun", "a word", "", "DBnary"⟩ (by decide)

/-- Claim C5: for every binding row kept by the DBnary normalizer, the
part-of-speech field is the fragment after the last `'#'` of the binding's
value when at least one character follows it, and the empty string when the
variable is absent. -/
theorem convertBinding_pos_fragment {word : String} {b : Binding} {d : Definition}
    (h : convertBinding word b = some d) :
    (bindingStr b "partOfSpeech" = none → d.PartOfSpeech = "") ∧
    (∀ (s : String) (l r : List Char), bindingStr b "partOfSpeech" = some s →
      s.data = l ++ '#' :: r → r ≠ [] → '#' ∉ r → d.PartOfSpeech = String.mk r) := by
  rcases convertBinding_eq_some h with ⟨rfl, -⟩
  constructor
  · intro habs
    simp [habs]
  · intro s l r hsome hs hr hnr
    simp only [hsome]
    exact posFrag_fragment hs hr hnr

/-- Witness for C5: the URI value `http://example.org/ontology#noun`
normalizes to `noun`, and an absent variable yields `""`. -/
theorem convertBinding_pos_fragment_witness :
    Definition.PartOfSpeech ⟨"run", "noun", "a word", "", "DBnary"⟩ = String.mk ['n', 'o', 'u', 'n'] :=
  (@convertBinding_pos_fragment "run"
      [("definition", [("value", "a word")]),
       ("partOfSpeech", [("value", "http://example.org/ontology#noun")])]
      ⟨"run", "noun", "a word", "", "DBnary"⟩ (by decide)).2
    "http://example.org/ontology#noun"
    "http://example.org/ontology".data ['n', 'o', 'u', 'n']
    (by decide) (by decide) (by decide) (by decide)

/-- Claim C10: a kept binding whose part-of-speech value ends in `'#'`, or
contains no `'#'` at all, keeps the entire value unchanged; fragment
extraction happens only when at least one character follows the last `'#'`. -/
theorem convertBinding_pos_no_fragment {word : String} {b : Binding} {d : Definition}
    (h : convertBinding word b = some d) (s : String)
    (hsome : bindingStr b "partOfSpeech" = some s)
    (hcase : '#' ∉ s.data ∨ ∃ l : List Char, s.data = l ++ ['#']) :
    d.PartOfSpeech = s := by
  rcases convertBinding_eq_some h with ⟨rfl, -⟩
  simp only [hsome]
  rcases hcase with hnm | ⟨l, hl⟩
  · exact posFrag_of_not_mem hnm
  · exact posFrag_ends_hash hl

/-- Witness for C10 at a value that ends with `'#'`: the value is kept whole. -/
theorem convertBinding_pos_no_fragment_witness :
    Definition.PartOfSpeech ⟨"run", "abc#", "a word", "", "DBnary"⟩ = "abc#" :=
  @convertBinding_pos_no_fragment "run"
    [("definition", [("value", "a word")]),
     ("partOfSpeech", [("value", "abc#")])]
    ⟨"run", "abc#", "a word", "", "DBnary"⟩ (by decide)
    "abc#" (by decide) (Or.inr ⟨['a', 'b', 'c'], by decide⟩)

/-! ### Helper lemmas about the aggregation engine -/

lemma lookupAll_ok_ok (word : String) (de : List DictEntry) (be : List SparqlEntry)
    (dictDur dbnDur totalDur : Nat) (f1 f2 f3 : Bool) :
    LookupAll word (.ok de) (.ok be) dictDur dbnDur totalDur f1 f2 f3 =
      { defs := if f1 then ConvertDictEntries de ++ ConvertDBnaryEntries be word
                else ConvertDBnaryEntries be word ++ ConvertDictEntries de
        timing :=
          { Total := totalDur
            Sources :=
              if f2 then [("dictionaryapi.dev", dictDur), ("DBnary", dbnDur)]
              else [("DBnary", dbnDur), ("dictionaryapi.dev", dictDur)] }
        err := none } := by
  cases f1 <;> cases f2 <;> cases f3 <;>
    simp [LookupAll, lookupDefChan, lookupDurChan, lookupErrChan, buildSources, mapSet]

lemma lookupAll_defs_flatten (word : String) (dict : Except GoError (List DictEntry))
    (dbn : Except GoError (List SparqlEntry)) (dictDur dbnDur totalDur : Nat)
    (f1 f2 f3 : Bool) :
    (LookupAll word dict dbn dictDur dbnDur totalDur f1 f2 f3).defs =
      (lookupDefChan word dict dbn f1).flatten := by
  cases hE : lookupErrChan dict dbn f3 <;> simp [LookupAll, hE]

lemma mem_lookupDefChan {d : Definition} {word : String}
    {dict : Except GoError (List DictEntry)} {dbn : Except GoError (List SparqlEntry)}
    {f1 : Bool} (h : d ∈ (lookupDefChan word dict dbn f1).flatten) :
    (∃ es, dict = .ok es ∧ d ∈ ConvertDictEntries es) ∨
    (∃ bs, dbn = .ok bs ∧ d ∈ ConvertDBnaryEntries bs word) := by
  rcases dict with e | de <;> rcases dbn with e2 | be <;> cases f1 <;>
    simp [lookupDefChan] at h <;>
    first
      | exact Or.inl ⟨de, rfl, h⟩
      | exact Or.inr ⟨be, rfl, h⟩
      | (rcases h with h | h
         · exact Or.inl ⟨de, rfl, h⟩
         · exact Or.inr ⟨be, rfl, h⟩)
      | (rcases h with h | h
         · exact Or.inr ⟨be, rfl, h⟩
         · exact Or.inl ⟨de, rfl, h⟩)

/-! ### Claim theorems for the aggregation engine -/

/-- Claim C1 fails on the code: with the dictionaryapi.dev task failing and
the DBnary task succeeding with one usable row, `LookupAll` returns the
buffered error and a zero-value timing record, but the successful provider's
partial definitions are returned rather than discarded. -/
theorem lookupAll_error_keeps_partial_defs_cex :
    (LookupAll "hello" (.error (.network "timeout"))
        (.ok [⟨⟨["definition"]⟩, ⟨[[("definition", [("value", "a word")])]]⟩⟩])
        5 7 12 true true true) =
      { defs := [⟨"hello", "", "a word", "", "DBnary"⟩]
        timing := { Total := 0, Sources := [] }
        err := some (.network "timeout") } := by
  decide

/-- Claim C1 (amended): if either provider task reports an error, `LookupAll`
returns the first buffered error together with a zero-value timing record,
discarding all partial per-source timings; the partial definitions gathered
from the other provider are however returned alongside the error, not
discarded. -/
theorem lookupAll_fail_fast (word : String) (dict : Except GoError (List DictEntry))
    (dbn : Except GoError (List SparqlEntry)) (dictDur dbnDur totalDur : Nat)
    (f1 f2 f3 : Bool)
    (h : (∃ e, dict = .error e) ∨ (∃ e, dbn = .error e)) :
    (LookupAll word dict dbn dictDur dbnDur totalDur f1 f2 f3).err =
      (lookupErrChan dict dbn f3).head? ∧
    lookupErrChan dict dbn f3 ≠ [] ∧
    (LookupAll word dict dbn dictDur dbnDur totalDur f1 f2 f3).timing =
      { Total := 0, Sources := [] } ∧
    (LookupAll word dict dbn dictDur dbnDur totalDur f1 f2 f3).defs =
      (lookupDefChan word dict dbn f1).flatten := by
  have hne : lookupErrChan dict dbn f3 ≠ [] := by
    rcases h with ⟨e, rfl⟩ | ⟨e, rfl⟩
    · rcases dbn with e2 | be <;> cases f3 <;> simp [lookupErrChan]
    · rcases dict with e2 | de <;> cases f3 <;> simp [lookupErrChan]
  rcases hE : lookupErrChan dict dbn f3 with _ | ⟨e0, rest⟩
  · exact absurd hE hne
  · exact ⟨by simp [LookupAll, hE], by simp, by simp [LookupAll, hE], by simp [LookupAll, hE]⟩

/-- Witness for the amended C1: a concrete failing dictionaryapi.dev task
yields a zero-value timing record. -/
theorem lookupAll_fail_fast_witness :
    (LookupAll "w" (.error (.network "boom")) (.ok []) 1 2 3 true true true).timing =
      { Total := 0, Sources := [] } :=
  (lookupAll_fail_fast "w" (.error (.network "boom")) (.ok []) 1 2 3 true true true
      (Or.inl ⟨.network "boom", rfl⟩)).2.2.1

/-- Claim C2: when `LookupAll` returns no error, the `Sources` map has exactly
one entry for every provider that contributed definitions to the returned
collection, and every `Sources` entry belongs to a provider whose fetch
completed successfully. -/
theorem lookupAll_sources_on_success (word : String) (dict : Except GoError (List DictEntry))
    (dbn : Except GoError (List SparqlEntry)) (dictDur dbnDur totalDur : Nat) (f1 f2 f3 : Bool)
    (h : (LookupAll word dict dbn dictDur dbnDur totalDur f1 f2 f3).err = none) :
    (∀ p : String,
        (∃ d ∈ (LookupAll word dict dbn dictDur dbnDur totalDur f1 f2 f3).defs, d.Source = p) →
        ((LookupAll word dict dbn dictDur dbnDur totalDur f1 f2 f3).timing.Sources.countP
            fun kv => kv.1 == p) = 1) ∧
    (∀ kv ∈ (LookupAll word dict dbn dictDur dbnDur totalDur f1 f2 f3).timing.Sources,
        (kv.1 = "dictionaryapi.dev" ∧ ∃ es, dict = .ok es) ∨
        (kv.1 = "DBnary" ∧ ∃ bs, dbn = .ok bs)) := by
  rcases dict with e | de
  · exfalso
    rcases dbn with e2 | be <;> cases f3 <;> simp [LookupAll, lookupErrChan] at h
  rcases dbn with e2 | be
  · exfalso
    cases f3 <;> simp [LookupAll, lookupErrChan] at h
  have hdefs : (LookupAll word (.ok de) (.ok be) dictDur dbnDur totalDur f1 f2 f3).defs =
      (if f1 then ConvertDictEntries de ++ ConvertDBnaryEntries be word
       else ConvertDBnaryEntries be word ++ ConvertDictEntries de) := by
    rw [lookupAll_ok_ok]
  have hsrcs : (LookupAll word (.ok de) (.ok be) dictDur dbnDur totalDur f1 f2 f3).timing.Sources =
      (if f2 then [("dictionaryapi.dev", dictDur), ("DBnary", dbnDur)]
       else [("DBnary", dbnDur), ("dictionaryapi.dev", dictDur)]) := by
    rw [lookupAll_ok_ok]
  constructor
  · rintro p ⟨d, hd, rfl⟩
    rw [hdefs] at hd
    rw [hsrcs]
    have hsrc : d.Source = "dictionaryapi.dev" ∨ d.Source = "DBnary" := by
      cases f1 <;> simp at hd <;> rcases hd with hd | hd
      · exact Or.inr (Source_of_mem_ConvertDBnaryEntries hd)
      · exact Or.inl (Source_of_mem_ConvertDictEntries hd)
      · exact Or.inl (Source_of_mem_ConvertDictEntries hd)
      · exact Or.inr (Source_of_mem_ConvertDBnaryEntries hd)
    rcases hsrc with hs | hs <;> rw [hs] <;> cases f2 <;> simp
  · intro kv hkv
    rw [hsrcs] at hkv
    cases f2 <;> simp at hkv <;> rcases hkv with rfl | rfl
    · exact Or.inr ⟨rfl, be, rfl⟩
    · exact Or.inl ⟨rfl, de, rfl⟩
    · exact Or.inl ⟨rfl, de, rfl⟩
    · exact Or.inr ⟨rfl, be, rfl⟩

/-- Witness for C2: with both providers successful and DBnary contributing one
definition, its `Sources` entry appears exactly once. -/
theorem lookupAll_sources_on_success_witness :
    ((LookupAll "w" (.ok [])
        (.ok [⟨⟨["definition"]⟩, ⟨[[("definition", [("value", "a word")])]]⟩⟩])
        1 2 3 true true true).timing.Sources.countP fun kv => kv.1 == "DBnary") = 1 :=
  (lookupAll_sources_on_success "w" (.ok [])
      (.ok [⟨⟨["definition"]⟩, ⟨[[("definition", [("value", "a word")])]]⟩⟩])
      1 2 3 true true true (by decide)).1 "DBnary"
    ⟨⟨"w", "", "a word", "", "DBnary"⟩, by decide, by decide⟩

/-- Claim C9: every definition from the dictionaryapi.dev normalizer is tagged
`dictionaryapi.dev`, every definition from the DBnary normalizer is tagged
`DBnary`, and no other source tag appears in a lookup's output. -/
theorem definitions_provenance (entries : List DictEntry) (sentries : List SparqlEntry)
    (word : String) (dict : Except GoError (List DictEntry))
    (dbn : Except GoError (List SparqlEntry)) (dictDur dbnDur totalDur : Nat)
    (f1 f2 f3 : Bool) :
    (∀ d ∈ ConvertDictEntries entries, d.Source = "dictionaryapi.dev") ∧
    (∀ d ∈ ConvertDBnaryEntries sentries word, d.Source = "DBnary") ∧
    (∀ d ∈ (LookupAll word dict dbn dictDur dbnDur totalDur f1 f2 f3).defs,
        d.Source = "dictionaryapi.dev" ∨ d.Source = "DBnary") := by
  refine ⟨fun d hd => Source_of_mem_ConvertDictEntries hd,
          fun d hd => Source_of_mem_ConvertDBnaryEntries hd, ?_⟩
  intro d hd
  rw [lookupAll_defs_flatten] at hd
  rcases mem_lookupDefChan hd with ⟨es, -, hm⟩ | ⟨bs, -, hm⟩
  · exact Or.inl (Source_of_mem_ConvertDictEntries hm)
  · exact Or.inr (Source_of_mem_ConvertDBnaryEntries hm)

/-- Witness for C9 at a concrete dictionaryapi.dev record. -/
theorem definitions_provenance_witness :
    Definition.Source ⟨"run", "verb", "move fast", "", "dictionaryapi.dev"⟩ =
      "dictionaryapi.dev" :=
  (definitions_provenance [⟨"run", [⟨"verb", [⟨"move fast", "", [], []⟩]⟩]⟩] [] "run"
      (.ok []) (.ok []) 1 2 3 true true true).1
    ⟨"run", "verb", "move fast", "", "dictionaryapi.dev"⟩ (by decide)

/-! ### Helper lemmas about the provider fetchers -/

lemma decodeElems_error_is_jsonDecode {l : List (Except String DictEntry)} {e : GoError}
    (h : decodeElems l = .error e) : ∃ m, e = .jsonDecode m := by
  induction l with
  | nil => simp [decodeElems] at h
  | cons x rest ih =>
    rcases x with m | entry
    · simp [decodeElems] at h
      exact ⟨m, h.symm⟩
    · rcases hrest : decodeElems rest with e2 | es <;>
        simp only [decodeElems, hrest, Except.map] at h
      · cases h
        exact ih hrest
      · cases h

lemma decodeDictStream_ne_apiStatus (b : DictBody) (c : Nat) :
    decodeDictStream b ≠ .error (.apiStatus c) := by
  intro h
  rcases hft : b.firstToken with _ | t
  · simp [decodeDictStream, hft] at h
  · by_cases ht : t = .arrayOpen
    · rcases hE : decodeElems b.elements with e | es
      · simp [decodeDictStream, hft, ht, hE] at h
        obtain ⟨m, rfl⟩ := decodeElems_error_is_jsonDecode hE
        cases h
      · cases hb : b.closingOk <;> simp [decodeDictStream, hft, ht, hE, hb] at h
    · simp [decodeDictStream, hft, ht] at h

/-! ### Claim theorems for the provider fetchers -/

/-- Claim C6 fails as stated: status 201 lies in the HTTP success class
(2xx), yet both provider fetches take the remote-status error branch, because
the code compares against exactly 200. -/
theorem fetch_status_success_class_cex :
    200 ≤ 201 ∧ 201 ≤ 299 ∧
    LookupDictEntry (.ok ⟨201, ⟨some .arrayOpen, [], true⟩⟩) = .error (.apiStatus 201) ∧
    LookupDBnaryEntry (.ok ⟨201, .ok ⟨⟨[]⟩, ⟨[]⟩⟩⟩) = .error (.apiStatus 201) := by
  decide

/-- Claim C6 (amended): any HTTP response with a status code other than 200
makes either provider fetch return the remote-status error carrying that code
(and no records), and a fetch with status exactly 200 never takes this error
branch. -/
theorem fetch_status_error (rd : HttpResponse DictBody)
    (rb : HttpResponse (Except String SparqlEntry)) :
    (rd.statusCode ≠ 200 → LookupDictEntry (.ok rd) = .error (.apiStatus rd.statusCode)) ∧
    (rd.statusCode = 200 → ∀ c, LookupDictEntry (.ok rd) ≠ .error (.apiStatus c)) ∧
    (rb.statusCode ≠ 200 → LookupDBnaryEntry (.ok rb) = .error (.apiStatus rb.statusCode)) ∧
    (rb.statusCode = 200 → ∀ c, LookupDBnaryEntry (.ok rb) ≠ .error (.apiStatus c)) := by
  refine ⟨fun h => by simp [LookupDictEntry, h], fun h c => ?_,
          fun h => by simp [LookupDBnaryEntry, h], fun h c => ?_⟩
  · have hred : LookupDictEntry (.ok rd) = decodeDictStream rd.body := by
      simp [LookupDictEntry, h]
    rw [hred]
    exact decodeDictStream_ne_apiStatus rd.body c
  · rcases hb : rb.body with m | res <;> simp [LookupDBnaryEntry, h, hb]

/-- Witness for the amended C6: a 404 response yields the status-404 error. -/
theorem fetch_status_error_witness :
    LookupDictEntry (.ok ⟨404, ⟨some .arrayOpen, [], true⟩⟩) = .error (.apiStatus 404) :=
  (fetch_status_error ⟨404, ⟨some .arrayOpen, [], true⟩⟩ ⟨200, .ok ⟨⟨[]⟩, ⟨[]⟩⟩⟩).1 (by decide)

/-- Claim C7: the dictionaryapi.dev decoder validates that the first top-level
JSON token is the opening array delimiter before iterating elements, and
returns the `JSON error: Expected array` error (with no entries) whenever the
first token is anything else. -/
theorem dict_decode_expects_array (b : DictBody) (t : JsonToken)
    (h1 : b.firstToken = some t) (h2 : t ≠ .arrayOpen) :
    decodeDictStream b = .error .jsonExpectedArray ∧
    LookupDictEntry (.ok ⟨200, b⟩) = .error .jsonExpectedArray := by
  have hd : decodeDictStream b = .error .jsonExpectedArray := by
    simp [decodeDictStream, h1, h2]
  exact ⟨hd, by simp [LookupDictEntry, hd]⟩

/-- Witness for C7 at a body whose first token is `'\x7b'` (an object). -/
theorem dict_decode_expects_array_witness :
    decodeDictStream ⟨some .objectOpen, [], true⟩ = .error .jsonExpectedArray ∧
    LookupDictEntry (.ok ⟨200, ⟨some .objectOpen, [], true⟩⟩) = .error .jsonExpectedArray :=
  dict_decode_expects_array ⟨some .objectOpen, [], true⟩ .objectOpen rfl (by decide)

/-! ### Claim theorem for the search history -/

/-- Claim C8: reading an absent history file yields the empty list (not an
error); appending `ephemeral` to the empty history then reading yields
`[ephemeral]`; appending `second` afterwards yields `[ephemeral, second]`;
and in general an append preserves the prior entries in order and adds the
new word at the end. -/
theorem history_round_trip :
    getRecentSearches none = .ok [] ∧
    (∃ fs1 : HistoryFile,
      addRecentSearch "ephemeral" none = .ok (fs1, ["ephemeral"]) ∧
      getRecentSearches fs1 = .ok ["ephemeral"] ∧
      ∃ fs2 : HistoryFile,
        addRecentSearch "second" fs1 = .ok (fs2, ["ephemeral", "second"]) ∧
        getRecentSearches fs2 = .ok ["ephemeral", "second"]) ∧
    (∀ (l : List String) (w : String), ∃ fs : HistoryFile,
      addRecentSearch w (some (.ok l)) = .ok (fs, l ++ [w]) ∧
      getRecentSearches fs = .ok (l ++ [w])) := by
  refine ⟨rfl,
    ⟨some (.ok ["ephemeral"]), rfl, rfl, some (.ok ["ephemeral", "second"]), rfl, rfl⟩, ?_⟩
  intro l w
  exact ⟨some (.ok (l ++ [w])), rfl, rfl⟩

/-- Witness for C8: the missing-file read is the empty history. -/
theorem history_round_trip_witness : getRecentSearches none = .ok ([] : List String) :=
  history_round_trip.1

end DictFetch
